import Mathlib

/-!
A shallow embedding of the call-session coordinator of the WhatsApp calling
demo server (`src/callManager.js`, wired to transports by `src/server.js`).

The JavaScript module keeps two in-memory `Map`s:
  * `calls : Map callId CallState` — the call registry,
  * `permissions : Map phone {grantedAt, expiresAt}` — the permission ledger.
We model a JS `Map` as an insertion-ordered association list and each exported
coordinator function as a pure function from system state (plus the inputs the
JS closes over: the current clock, provider-API outcomes, the availability of
the native WebRTC bridge) to a new system state, the list of Socket.IO events
it emits, and its thrown-error outcome.  JS handlers are synchronous between
`await` points; every mutation sequence modelled here is `await`-free in the
source, so one Lean function application corresponds to one atomic step.
-/

/-- One entry of the JS `calls` map (`CallState` objects in `callManager.js`).
Media handles (`whatsappPeer`, `browserPeer`) are modelled by presence flags;
`peersClosed` records that `cleanup` ran for the session (handles closed and
the 5-minute purge scheduled).  Timestamps are epoch milliseconds. -/
structure CallState where
  callId : String
  direction : String
  recipientPhone : String
  status : String
  socketId : Option String
  whatsappPeer : Bool
  browserPeer : Bool
  peersClosed : Bool
  createdAt : Nat
  deriving DecidableEq

/-- One entry of the JS `permissions` map. -/
structure Perm where
  grantedAt : Nat
  expiresAt : Nat
  deriving DecidableEq

abbrev CallMap := List (String × CallState)

abbrev PermMap := List (String × Perm)

/-- The coordinator's shared mutable state. -/
structure SysState where
  calls : CallMap
  perms : PermMap
  deriving DecidableEq

/-- Socket.IO events emitted by the coordinator (payload fields that the
claims inspect are kept; opaque SDP payloads are dropped). -/
inductive Event where
  | permissionGranted (phone : String)
  | callRinging (callId phone : String)
  | callAccepted (callId phone : String)
  | callRejected (callId phone : String)
  | callConnected (callId phone : String)
  | callEnded (callId : String) (phone : Option String)
  | callIncoming (callId fromPhone : String)
  | callStatus (callId status : String)
  | generateSdpOffer (callId phone : String)
  | sdpAnswerFromWhatsapp (callId : String)
  | setupBrowserAudio (callId : String)
  | inboundSdpOffer (callId : String)
  | callError (callId msg : String)
  | callsReset (count : Nat)
  | errorMsg (msg : String)
  deriving DecidableEq

/-! ### JS `Map` operations on insertion-ordered association lists -/

/-- `Map.prototype.get`. -/
def mapGet {α : Type} : List (String × α) → String → Option α
  | [], _ => none
  | p :: rest, k => if p.1 = k then some p.2 else mapGet rest k

/-- `Map.prototype.set`: replace in place when the key exists (keeping its
position), append otherwise. -/
def mapSet {α : Type} : List (String × α) → String → α → List (String × α)
  | [], k, v => [(k, v)]
  | p :: rest, k, v => if p.1 = k then (k, v) :: rest else p :: mapSet rest k v

/-- `Map.prototype.delete`. -/
def mapDelete {α : Type} : List (String × α) → String → List (String × α)
  | [], _ => []
  | p :: rest, k => if p.1 = k then mapDelete rest k else p :: mapDelete rest k

/-- Keys of a map, in insertion order. -/
def keysOf {α : Type} (m : List (String × α)) : List String := m.map Prod.fst

theorem mapGet_mapSet_self {α : Type} (m : List (String × α)) (k : String) (v : α) :
    mapGet (mapSet m k v) k = some v := by
  induction m with
  | nil => simp [mapSet, mapGet]
  | cons p rest ih =>
    by_cases h : p.1 = k
    · simp [mapSet, mapGet, h]
    · simp [mapSet, mapGet, h, ih]

theorem mapGet_mapDelete_self {α : Type} (m : List (String × α)) (k : String) :
    mapGet (mapDelete m k) k = none := by
  induction m with
  | nil => simp [mapDelete, mapGet]
  | cons p rest ih =>
    by_cases h : p.1 = k
    · simp [mapDelete, h, ih]
    · simp [mapDelete, mapGet, h, ih]

theorem mem_of_mapGet {α : Type} {m : List (String × α)} {k : String} {v : α}
    (h : mapGet m k = some v) : (k, v) ∈ m := by
  induction m with
  | nil => simp [mapGet] at h
  | cons p rest ih =>
    by_cases hk : p.1 = k
    · simp [mapGet, hk] at h
      have hp : p = (k, v) := by
        obtain ⟨a, b⟩ := p
        simp at hk h ⊢
        exact ⟨hk, h⟩
      exact List.mem_cons.mpr (Or.inl hp.symm)
    · simp [mapGet, hk] at h
      exact List.mem_cons_of_mem _ (ih h)

theorem mem_mapSet_elim {α : Type} {m : List (String × α)} {k : String} {v : α}
    {p : String × α} (h : p ∈ mapSet m k v) : p = (k, v) ∨ p ∈ m := by
  induction m with
  | nil => simp [mapSet] at h; simp [h]
  | cons q rest ih =>
    by_cases hk : q.1 = k
    · simp [mapSet, hk] at h
      rcases h with h | h
      · exact Or.inl h
      · exact Or.inr (List.mem_cons_of_mem _ h)
    · simp [mapSet, hk] at h
      rcases h with h | h
      · exact Or.inr (by simp [h])
      · rcases ih h with h' | h'
        · exact Or.inl h'
        · exact Or.inr (List.mem_cons_of_mem _ h')

theorem mapDelete_sublist {α : Type} (m : List (String × α)) (k : String) :
    (mapDelete m k).Sublist m := by
  induction m with
  | nil => simp [mapDelete]
  | cons p rest ih =>
    by_cases hk : p.1 = k
    · simp only [mapDelete, hk, if_pos]
      exact ih.cons _
    · simp only [mapDelete, hk, if_neg, not_false_iff]
      exact ih.cons₂ _

theorem mapGet_eq_none_iff {α : Type} (m : List (String × α)) (k : String) :
    mapGet m k = none ↔ k ∉ keysOf m := by
  induction m with
  | nil => simp [mapGet, keysOf]
  | cons p rest ih =>
    by_cases hk : p.1 = k
    · simp [mapGet, keysOf, hk]
    · have hkeys : keysOf (p :: rest) = p.1 :: keysOf rest := rfl
      rw [hkeys]
      simp only [mapGet, if_neg hk]
      rw [ih]
      constructor
      · intro h hm
        rcases List.mem_cons.mp hm with h' | h'
        · exact hk h'.symm
        · exact h h'
      · intro h hm
        exact h (List.mem_cons_of_mem _ hm)

theorem keysOf_mapSet_of_mem {α : Type} (m : List (String × α)) (k : String) (v : α)
    (h : k ∈ keysOf m) : keysOf (mapSet m k v) = keysOf m := by
  induction m with
  | nil => simp [keysOf] at h
  | cons p rest ih =>
    by_cases hk : p.1 = k
    · simp [mapSet, keysOf, hk]
    · have hm : k ∈ keysOf rest := by
        have h' : k ∈ p.1 :: keysOf rest := h
        rcases List.mem_cons.mp h' with h'' | h''
        · exact absurd h''.symm hk
        · exact h''
      simp only [mapSet, if_neg hk]
      show p.1 :: keysOf (mapSet rest k v) = p.1 :: keysOf rest
      rw [ih hm]

theorem mapSet_eq_append {α : Type} (m : List (String × α)) (k : String) (v : α)
    (h : k ∉ keysOf m) : mapSet m k v = m ++ [(k, v)] := by
  induction m with
  | nil => simp [mapSet]
  | cons p rest ih =>
    have h' : k ∉ p.1 :: keysOf rest := h
    have hk : p.1 ≠ k := fun hc => h' (by rw [hc]; exact List.mem_cons_self _ _)
    have hr : k ∉ keysOf rest := fun hc => h' (List.mem_cons_of_mem _ hc)
    simp [mapSet, hk, ih hr]

theorem nodup_keys_mapSet {α : Type} (m : List (String × α)) (k : String) (v : α)
    (h : (keysOf m).Nodup) : (keysOf (mapSet m k v)).Nodup := by
  by_cases hk : k ∈ keysOf m
  · rw [keysOf_mapSet_of_mem m k v hk]
    exact h
  · rw [mapSet_eq_append m k v hk]
    simp [keysOf]
    rw [List.nodup_append]
    refine ⟨h, List.nodup_singleton _, ?_⟩
    intro a ha hb
    simp at hb
    subst hb
    exact hk ha

theorem nodup_keys_mapDelete {α : Type} (m : List (String × α)) (k : String)
    (h : (keysOf m).Nodup) : (keysOf (mapDelete m k)).Nodup :=
  ((mapDelete_sublist m k).map Prod.fst).nodup h

/-! ### Permission ledger (`permissions` map, `callManager.js` lines 22-53) -/

/-- Result of `getPermissionStatus`.  `granted` carries the fields the JS
object exposes (`grantedAt`, `expiresAt`, `remainingHours`). -/
inductive PermStatus where
  | ungranted
  | expired
  | granted (grantedAt expiresAt remainingHours : Nat)
  deriving DecidableEq

def PermStatus.isGranted : PermStatus → Bool
  | .granted _ _ _ => true
  | _ => false

/-- 72 hours in milliseconds. -/
def permTTL : Nat := 72 * 60 * 60 * 1000

/-- `getPermissionStatus(phone)`: reads the ledger at clock `now`; lazily
deletes an expired entry (`now > perm.expiresAt`) and reports it as expired.
`remainingHours` is `Math.round((expiresAt - now) / 3600000)`. -/
def getPermissionStatus (perms : PermMap) (phone : String) (now : Nat) :
    PermStatus × PermMap :=
  match mapGet perms phone with
  | none => (.ungranted, perms)
  | some perm =>
    if perm.expiresAt < now then (.expired, mapDelete perms phone)
    else
      (.granted perm.grantedAt perm.expiresAt ((perm.expiresAt - now + 1800000) / 3600000),
       perms)

/-- `handlePermissionGranted(phone, io)`: stores a fresh 72-hour grant
(overwriting any prior one) and broadcasts `permission-granted`. -/
def handlePermissionGranted (phone : String) (now : Nat) (perms : PermMap) :
    PermMap × List Event :=
  (mapSet perms phone ⟨now, now + permTTL⟩, [.permissionGranted phone])

/-! ### Cleanup (`cleanup`, lines 401-414) -/

/-- `cleanup(callId)`: closes any held media handles and schedules the
registry purge 5 minutes later; the entry itself stays in the map.  Modelled
by setting `peersClosed`. -/
def cleanup (calls : CallMap) (callId : String) : CallMap :=
  match mapGet calls callId with
  | none => calls
  | some s => mapSet calls callId { s with peersClosed := true }

/-! ### Outbound call initiation (`startOutboundCall`, lines 55-143) -/

/-- The statuses the conflict check in `startOutboundCall` treats as an
active outbound call. -/
def activeStatuses : List String := ["awaiting_browser_sdp", "ringing", "accepted", "connected"]

def isActiveOutbound (s : CallState) : Bool :=
  s.direction == "outbound" && activeStatuses.contains s.status

/-- The auto-expiry test: stuck in `awaiting_browser_sdp` for strictly more
than `STALE_TIMEOUT = 30 * 1000` milliseconds. -/
def isStaleAwaiting (now : Nat) (s : CallState) : Bool :=
  s.status == "awaiting_browser_sdp" && decide (30000 < now - s.createdAt)

/-- The message of the conflict error thrown by `startOutboundCall`. -/
def conflictMsg (id status : String) : String :=
  "An outbound call is already in progress (" ++ id ++ ", status: " ++ status ++ ")"

/-- The `for (const [id, s] of calls)` loop of `startOutboundCall`: each
active outbound entry is either auto-expired (stale `awaiting_browser_sdp`,
with `cleanup` run on it) or aborts the loop with a conflict.  Mutations made
before the abort persist, and entries after the abort are untouched. -/
def scanConflict (now : Nat) : CallMap → CallMap × Option (String × String)
  | [] => ([], none)
  | (id, s) :: rest =>
    if isActiveOutbound s then
      if isStaleAwaiting now s then
        let r := scanConflict now rest
        ((id, { s with status := "expired", peersClosed := true }) :: r.1, r.2)
      else ((id, s) :: rest, some (id, s.status))
    else
      let r := scanConflict now rest
      ((id, s) :: r.1, r.2)

/-- The provisional id generated in browser-only mode: `call_${Date.now()}`. -/
def freshBrowserCallId (now : Nat) : String := "call_" ++ toString now

/-- `startOutboundCall(phone, io, socket)`.  `bridgeAvailable` models
`webrtcBridge.isAvailable()`; `api` models the outcome of
`whatsappApi.initiateOutboundCall` in bridge mode, its `.ok` value being the
resolved provider call id; `sock` is the originating socket's id.  Returns
the new state, emitted events, and either `.ok (callId, status)` or the
thrown error message. -/
def startOutboundCall (phone : String) (now : Nat) (bridgeAvailable : Bool)
    (api : Except String String) (sock : Option String) (st : SysState) :
    SysState × List Event × Except String (String × String) :=
  let pr := getPermissionStatus st.perms phone now
  match pr.1 with
  | .expired =>
    (⟨st.calls, pr.2⟩, [],
     .error "Call permission has expired. Send a new permission request.")
  | .ungranted =>
    (⟨st.calls, pr.2⟩, [],
     .error "No call permission for this number. Send a permission request first.")
  | .granted _ _ _ =>
    let scan := scanConflict now st.calls
    match scan.2 with
    | some (id, stt) => (⟨scan.1, pr.2⟩, [], .error (conflictMsg id stt))
    | none =>
      if bridgeAvailable then
        match api with
        | .error e => (⟨scan.1, pr.2⟩, [], .error e)
        | .ok callId =>
          let s : CallState := ⟨callId, "outbound", phone, "ringing", none, true, false, false, now⟩
          (⟨mapSet scan.1 callId s, pr.2⟩, [.callRinging callId phone],
           .ok (callId, "ringing"))
      else
        let callId := freshBrowserCallId now
        let s : CallState :=
          ⟨callId, "outbound", phone, "awaiting_browser_sdp", sock, false, false, false, now⟩
        (⟨mapSet scan.1 callId s, pr.2⟩, [.generateSdpOffer callId phone],
         .ok (callId, "awaiting_browser_sdp"))

/-! ### Browser SDP offer (`handleBrowserSdpOffer`, lines 145-183) -/

/-- `handleBrowserSdpOffer(callId, sdpOffer, io)`.  `api` models the outcome
of `whatsappApi.initiateOutboundCall`; its `.ok` value is the resolved
provider id `waCallId` (the source falls back to `callId` when the response
carries none).  On success the session adopts the provider id and the
registry is rekeyed when it differs; on failure the session fails and is
cleaned up. -/
def handleBrowserSdpOffer (callId : String) (api : Except String String)
    (st : SysState) : SysState × List Event :=
  match mapGet st.calls callId with
  | none => (st, [])
  | some s =>
    if s.status = "ringing" ∨ s.status = "connected" then (st, [])
    else
      match api with
      | .ok waCallId =>
        let s' := { s with callId := waCallId, status := "ringing" }
        let calls' :=
          if waCallId ≠ callId then mapSet (mapDelete st.calls callId) waCallId s'
          else mapSet st.calls callId s'
        (⟨calls', st.perms⟩, [.callRinging waCallId s.recipientPhone])
      | .error e =>
        let calls1 := mapSet st.calls callId { s with status := "failed" }
        (⟨cleanup calls1 callId, st.perms⟩, [.callError callId e])

/-! ### Remote SDP answer (`handleOutboundSdpAnswer`, lines 185-233) -/

def answerFallback (p : String × CallState) : Bool :=
  p.2.direction == "outbound" && (p.2.status == "ringing" || p.2.status == "accepted")

/-- Resolve the session an SDP answer applies to: exact id, or else the first
active outbound session, which then adopts the arriving id (the old key is
removed and the new one inserted).  Returns the updated registry and the
resolved session. -/
def resolveAnswerTarget (callId : String) (calls : CallMap) :
    Option (CallMap × CallState) :=
  match mapGet calls callId with
  | some s => some (calls, s)
  | none =>
    match calls.find? answerFallback with
    | some (id, s) =>
      let s' := { s with callId := callId }
      some (mapSet (mapDelete calls id) callId s', s')
    | none => none

/-- The events emitted once an answer is applied: bridge mode asks the
browser to set up audio, relay mode forwards the answer; both broadcast
`call-connected`. -/
def answerEvents (callId : String) (s : CallState) : List Event :=
  if s.whatsappPeer then [.setupBrowserAudio callId, .callConnected callId s.recipientPhone]
  else [.sdpAnswerFromWhatsapp callId, .callConnected callId s.recipientPhone]

/-- `handleOutboundSdpAnswer(callId, sdpAnswer, io)`: resolves the target
session (with the id-adoption fallback), marks it `connected`, and emits. -/
def handleOutboundSdpAnswer (callId : String) (st : SysState) :
    SysState × List Event :=
  match resolveAnswerTarget callId st.calls with
  | none => (st, [])
  | some (calls1, s) =>
    (⟨mapSet calls1 callId { s with status := "connected" }, st.perms⟩,
     answerEvents callId s)

/-! ### Provider status events (`handleOutboundStatus`, lines 235-272) -/

/-- The fallback predicate of `handleOutboundStatus`: an outbound session in
`ringing`, `accepted` or `awaiting_browser_sdp`. -/
def statusFallback (p : String × CallState) : Bool :=
  p.2.direction == "outbound" &&
    (p.2.status == "ringing" || p.2.status == "accepted" ||
     p.2.status == "awaiting_browser_sdp")

/-- `handleOutboundStatus(callId, statusValue, io)`: exact lookup, else the
first session matching `statusFallback`; the resolved session's status is
overwritten according to `statusValue` and the matching broadcast emitted
(on `rejected`, `cleanup` runs against the incoming id). -/
def handleOutboundStatus (callId statusValue : String) (st : SysState) :
    SysState × List Event :=
  let target : Option (String × CallState) :=
    match mapGet st.calls callId with
    | some s => some (callId, s)
    | none => st.calls.find? statusFallback
  match target with
  | none => (st, [])
  | some (key, s) =>
    match statusValue with
    | "ringing" =>
      (⟨mapSet st.calls key { s with status := "ringing" }, st.perms⟩,
       [.callRinging callId s.recipientPhone])
    | "accepted" =>
      (⟨mapSet st.calls key { s with status := "accepted" }, st.perms⟩,
       [.callAccepted callId s.recipientPhone])
    | "rejected" =>
      (⟨cleanup (mapSet st.calls key { s with status := "rejected" }) callId, st.perms⟩,
       [.callRejected callId s.recipientPhone])
    | _ => (st, [.callStatus callId statusValue])

/-! ### Inbound calls (lines 274-326, 356-399) -/

/-- `handleInboundCall(callId, from, sdpOffer, io)`: registers an `incoming`
inbound session and broadcasts `call-incoming`. -/
def handleInboundCall (callId fromPhone : String) (now : Nat) (st : SysState) :
    SysState × List Event :=
  (⟨mapSet st.calls callId
      ⟨callId, "inbound", fromPhone, "incoming", none, false, false, false, now⟩,
    st.perms⟩,
   [.callIncoming callId fromPhone])

/-- `acceptInboundCall(callId, io, socket)`.  `bridgeAvailable` models
`webrtcBridge.isAvailable()`; `preAcceptOk`/`acceptOk` the outcomes of the
two `whatsappApi.answerCall` handshake calls (whose thrown errors propagate;
the fixed messages stand in for the provider's payload).  In relay mode the
stored offer is forwarded to the browser instead. -/
def acceptInboundCall (callId : String) (bridgeAvailable preAcceptOk acceptOk : Bool)
    (st : SysState) : SysState × List Event × Option String :=
  match mapGet st.calls callId with
  | none => (st, [], some "No inbound call to accept")
  | some s =>
    if s.direction ≠ "inbound" then (st, [], some "No inbound call to accept")
    else
      let s1 := { s with status := "accepting" }
      let calls1 := mapSet st.calls callId s1
      if bridgeAvailable then
        let s2 := { s1 with whatsappPeer := true }
        let calls2 := mapSet calls1 callId s2
        if preAcceptOk then
          let s3 := { s2 with status := "pre_accepted" }
          let calls3 := mapSet calls2 callId s3
          if acceptOk then
            let s4 := { s3 with status := "connected" }
            (⟨mapSet calls3 callId s4, st.perms⟩,
             [.setupBrowserAudio callId, .callConnected callId s.recipientPhone], none)
          else (⟨calls3, st.perms⟩, [], some "answerCall accept failed")
        else (⟨calls2, st.perms⟩, [], some "answerCall pre_accept failed")
      else
        (⟨calls1, st.perms⟩, [.inboundSdpOffer callId], none)

/-- `handleTerminate(callId, io)`: unknown ids are logged and dropped; known
sessions become `terminated`, `call-ended` is broadcast, `cleanup` runs. -/
def handleTerminate (callId : String) (st : SysState) : SysState × List Event :=
  match mapGet st.calls callId with
  | none => (st, [])
  | some s =>
    (⟨cleanup (mapSet st.calls callId { s with status := "terminated" }) callId, st.perms⟩,
     [.callEnded callId (some s.recipientPhone)])

/-- `rejectInboundCall(callId, io)`.  The `whatsappApi.rejectCall` call is
wrapped in try/catch and only logged, so `apiOk` cannot change the result:
the session always reaches `rejected`, `call-ended` is emitted, `cleanup`
runs. -/
def rejectInboundCall (callId : String) (apiOk : Bool) (st : SysState) :
    SysState × List Event × Option String :=
  match mapGet st.calls callId with
  | none => (st, [], some "No inbound call to reject")
  | some s =>
    if s.direction ≠ "inbound" then (st, [], some "No inbound call to reject")
    else
      (⟨cleanup (mapSet st.calls callId { s with status := "rejected" }) callId, st.perms⟩,
       [.callEnded callId (some s.recipientPhone)], none)

/-- `endCall(callId, io)`.  The `whatsappApi.terminateCall` call is wrapped
in try/catch and only logged, so `apiOk` cannot change the result; but an
unknown id throws `'No active call'`. -/
def endCall (callId : String) (apiOk : Bool) (st : SysState) :
    SysState × List Event × Option String :=
  match mapGet st.calls callId with
  | none => (st, [], some "No active call")
  | some s =>
    (⟨cleanup (mapSet st.calls callId { s with status := "terminated" }) callId, st.perms⟩,
     [.callEnded callId none], none)

/-- `server.js` `socket.on('end-call')`: any error thrown by
`callManager.endCall` is caught and re-emitted to the requesting socket as an
`error` event. -/
def socketEndCall (callId : String) (apiOk : Bool) (st : SysState) :
    SysState × List Event :=
  match endCall callId apiOk st with
  | (st', evs, none) => (st', evs)
  | (st', evs, some msg) => (st', evs ++ [.errorMsg msg])

/-! ### Bulk reset (`resetCalls`, lines 416-428) -/

/-- The statuses `resetCalls` treats as stuck. -/
def resettableStatuses : List String := ["awaiting_browser_sdp", "ringing", "accepted", "incoming"]

/-- The `for (const [id, s] of calls)` loop of `resetCalls`: matched sessions
become `reset` with `cleanup` run on them, and are counted. -/
def resetLoop : CallMap → CallMap × Nat
  | [] => ([], 0)
  | (id, s) :: rest =>
    let r := resetLoop rest
    if resettableStatuses.contains s.status then
      ((id, { s with status := "reset", peersClosed := true }) :: r.1, r.2 + 1)
    else ((id, s) :: r.1, r.2)

/-- `resetCalls(io)`: resets every stuck session, broadcasts `calls-reset`
with the count, and returns the count. -/
def resetCalls (st : SysState) : SysState × List Event × Nat :=
  let r := resetLoop st.calls
  (⟨r.1, st.perms⟩, [.callsReset r.2], r.2)

/-! ### Demo sessions used by concrete instances -/

/-- A minimal outbound session record. -/
def demoOutbound (id status : String) : CallState :=
  ⟨id, "outbound", "p1", status, none, false, false, false, 0⟩

/-- A minimal inbound session record. -/
def demoInbound (id status : String) : CallState :=
  ⟨id, "inbound", "p2", status, none, false, false, false, 0⟩

/-! ### Claim C3 — permission round-trip -/

/-- Claim C3, as stated, is false at the expiry boundary: granting at `T = 0`
and reading at exactly `T + 72h = 259200000` still returns `granted = true`,
because the source tests `now > perm.expiresAt` strictly. -/
theorem C3_counterexample :
    (getPermissionStatus (handlePermissionGranted "p" 0 []).1 "p" 259200000).1.isGranted
      = true := by rfl

/-- Claim C3 (amended): granting at time `T` yields `granted = true` for
every read at `t ≤ T + 72h`, and `granted = false, expired = true` for the
first read strictly after `T + 72h`, which removes the ledger entry. -/
theorem C3_permission_roundtrip (perms0 : PermMap) (phone : String) (T t t' : Nat)
    (h1 : t ≤ T + permTTL) (h2 : T + permTTL < t') :
    (getPermissionStatus (handlePermissionGranted phone T perms0).1 phone t).1.isGranted
        = true ∧
    (getPermissionStatus (handlePermissionGranted phone T perms0).1 phone t').1
        = PermStatus.expired ∧
    mapGet (getPermissionStatus (handlePermissionGranted phone T perms0).1 phone t').2 phone
        = none := by
  have hget : mapGet (handlePermissionGranted phone T perms0).1 phone
      = some ⟨T, T + permTTL⟩ := mapGet_mapSet_self _ _ _
  refine ⟨?_, ?_, ?_⟩
  · simp only [getPermissionStatus, hget]
    rw [if_neg (by omega)]
    rfl
  · simp only [getPermissionStatus, hget]
    rw [if_pos (by omega)]
  · simp only [getPermissionStatus, hget]
    rw [if_pos (by omega)]
    exact mapGet_mapDelete_self _ _

/-- Witness for C3's amended theorem at `phone = "p"`, `T = 0`,
`t = 259200000`, `t' = 259200001`. -/
theorem C3_witness :
    (getPermissionStatus (handlePermissionGranted "p" 0 []).1 "p" 259200000).1.isGranted
        = true ∧
    (getPermissionStatus (handlePermissionGranted "p" 0 []).1 "p" 259200001).1
        = PermStatus.expired ∧
    mapGet (getPermissionStatus (handlePermissionGranted "p" 0 []).1 "p" 259200001).2 "p"
        = none :=
  C3_permission_roundtrip [] "p" 0 259200000 259200001 (by decide) (by decide)

/-! ### Claim C2 — idempotency of duplicate status events -/

/-- Claim C2, as stated, is false: delivering `call-status(accepted)` twice
for call `c1` emits the `call-accepted` broadcast on the second delivery as
well — the source has no terminal/identical-status guard. -/
theorem C2_counterexample :
    (handleOutboundStatus "c1" "accepted"
        (handleOutboundStatus "c1" "accepted"
          ⟨[("c1", demoOutbound "c1" "ringing")], []⟩).1).2
      = [Event.callAccepted "c1" "p1"] := by rfl

/-- Claim C2 (amended): a `call-status(accepted)` event for a registered call
id is always applied — the status is overwritten with `accepted` and a
`call-accepted` broadcast emitted — regardless of the session's current
status, identical or terminal included; so a duplicate delivery repeats the
broadcast. -/
theorem C2_status_always_applied (st : SysState) (cid : String) (s : CallState)
    (h : mapGet st.calls cid = some s) :
    handleOutboundStatus cid "accepted" st =
      (⟨mapSet st.calls cid { s with status := "accepted" }, st.perms⟩,
       [Event.callAccepted cid s.recipientPhone]) := by
  simp only [handleOutboundStatus, h]

/-- Witness for C2's amended theorem: the event is re-applied even to a
session already in the terminal status `rejected`. -/
theorem C2_witness :
    handleOutboundStatus "c9" "accepted" ⟨[("c9", demoOutbound "c9" "rejected")], []⟩ =
      (⟨[("c9", demoOutbound "c9" "accepted")], []⟩, [Event.callAccepted "c9" "p1"]) :=
  C2_status_always_applied ⟨[("c9", demoOutbound "c9" "rejected")], []⟩ "c9"
    (demoOutbound "c9" "rejected") rfl

/-! ### Claim C5 — fallback lookup for unrecognized status ids -/

/-- Claim C5, as stated, is false: with two outbound sessions both in
`ringing`, a status event with an unknown id is not dropped — it is applied
to the first match. -/
theorem C5_counterexample :
    handleOutboundStatus "zzz" "accepted"
        ⟨[("a", demoOutbound "a" "ringing"), ("b", demoOutbound "b" "ringing")], []⟩ =
      (⟨[("a", demoOutbound "a" "accepted"), ("b", demoOutbound "b" "ringing")], []⟩,
       [Event.callAccepted "zzz" "p1"]) := by rfl

/-- Claim C5 (amended): when a status event carries an unrecognized call id,
the coordinator applies it to the *first* outbound session in
`ringing`/`accepted`/`awaiting_browser_sdp` in registry order, even if
several match; only when none matches is the event dropped with a warning
and no state change. -/
theorem C5_fallback_first_match (st : SysState) (cid sv : String)
    (hmiss : mapGet st.calls cid = none) :
    (st.calls.find? statusFallback = none →
        handleOutboundStatus cid sv st = (st, [])) ∧
    (∀ k s, st.calls.find? statusFallback = some (k, s) →
        handleOutboundStatus cid "accepted" st =
          (⟨mapSet st.calls k { s with status := "accepted" }, st.perms⟩,
           [Event.callAccepted cid s.recipientPhone])) := by
  constructor
  · intro hnone
    simp only [handleOutboundStatus, hmiss, hnone]
  · intro k s hfind
    simp only [handleOutboundStatus, hmiss, hfind]

/-- Witness for C5's amended theorem: with no matching session an unknown
status event is dropped. -/
theorem C5_witness :
    handleOutboundStatus "zzz" "accepted" ⟨[], []⟩ = (⟨[], []⟩, []) :=
  (C5_fallback_first_match ⟨[], []⟩ "zzz" "accepted" rfl).1 rfl

/-! ### Claim C7 — explicit reset -/

/-- What `resetCalls` does to a single registry entry. -/
def resetStep (p : String × CallState) : String × CallState :=
  if resettableStatuses.contains p.2.status then
    (p.1, { p.2 with status := "reset", peersClosed := true })
  else p

def isResettable (p : String × CallState) : Bool :=
  resettableStatuses.contains p.2.status

theorem resetLoop_spec (l : CallMap) :
    resetLoop l = (l.map resetStep, l.countP isResettable) := by
  induction l with
  | nil => rfl
  | cons p rest ih =>
    obtain ⟨id, s⟩ := p
    simp only [resetLoop, ih, List.map_cons, List.countP_cons, resetStep, isResettable]
    by_cases h : s.status ∈ resettableStatuses
    · simp [h]
    · simp [h]

/-- Claim C7, as stated, is false: a session in the non-terminal status
`connected` is not reset — `resetCalls` leaves it untouched and returns
count `0`. -/
theorem C7_counterexample :
    resetCalls ⟨[("c1", demoOutbound "c1" "connected")], []⟩ =
      (⟨[("c1", demoOutbound "c1" "connected")], []⟩, [Event.callsReset 0], 0) := by rfl

/-- Claim C7 (amended): `resetCalls` sets exactly the sessions whose status
is in {`awaiting_browser_sdp`, `ringing`, `accepted`, `incoming`} to the
terminal status `reset`, runs `cleanup` on each, broadcasts and returns
their count; sessions in any other status — `connected`, `accepting`,
`pre_accepted` included — are untouched.  With exactly two sessions in
`ringing` and `incoming`, both are reset and the count is 2. -/
theorem C7_reset_matched_sessions (st : SysState) :
    (resetCalls st).1.calls = st.calls.map resetStep ∧
    (resetCalls st).2.2 = st.calls.countP isResettable ∧
    (resetCalls st).2.1 = [Event.callsReset (st.calls.countP isResettable)] := by
  simp only [resetCalls, resetLoop_spec]
  exact ⟨trivial, trivial, trivial⟩

/-! ### Claim C8 — events for unknown call ids -/

/-- Claim C8, as stated, is false for the end event: `endCall` on a call id
with no matching session throws `'No active call'`, and the `end-call`
socket handler surfaces it to the caller as an `error` event. -/
theorem C8_counterexample :
    endCall "x1" true ⟨[], []⟩ = (⟨[], []⟩, [], some "No active call") ∧
    socketEndCall "x1" true ⟨[], []⟩ = (⟨[], []⟩, [Event.errorMsg "No active call"]) := by
  exact ⟨rfl, rfl⟩

/-- Claim C8 (amended): a terminate event referencing a call id with no
matching session is logged and dropped with no state change and no
caller-visible failure; but the end event on an unknown id throws
`'No active call'`, which is surfaced to the requesting caller as an error
(socket `error` event / HTTP 500), still with no state change. -/
theorem C8_unknown_id_events (st : SysState) (cid : String) (apiOk : Bool)
    (h : mapGet st.calls cid = none) :
    handleTerminate cid st = (st, []) ∧
    endCall cid apiOk st = (st, [], some "No active call") ∧
    socketEndCall cid apiOk st = (st, [Event.errorMsg "No active call"]) := by
  refine ⟨?_, ?_, ?_⟩
  · simp only [handleTerminate, h]
  · simp only [endCall, h]
  · simp only [socketEndCall, endCall, h]
    rfl

/-- Witness for C8's amended theorem with a non-empty registry. -/
theorem C8_witness :
    handleTerminate "nope" ⟨[("a", demoOutbound "a" "ringing")], []⟩ =
        (⟨[("a", demoOutbound "a" "ringing")], []⟩, []) ∧
    endCall "nope" false ⟨[("a", demoOutbound "a" "ringing")], []⟩ =
        (⟨[("a", demoOutbound "a" "ringing")], []⟩, [], some "No active call") ∧
    socketEndCall "nope" false ⟨[("a", demoOutbound "a" "ringing")], []⟩ =
        (⟨[("a", demoOutbound "a" "ringing")], []⟩, [Event.errorMsg "No active call"]) :=
  C8_unknown_id_events ⟨[("a", demoOutbound "a" "ringing")], []⟩ "nope" false rfl

/-! ### Claim C9 — teardown always reaches a terminal status -/

/-- Claim C9: for `endCall` and `rejectInboundCall` on an existing (for
reject: inbound) session, the provider call's outcome (`apiOk` either way)
cannot prevent the local transition: the session reaches `terminated`
(resp. `rejected`), `call-ended` is emitted, and `cleanup` runs. -/
theorem C9_teardown_unconditional (st : SysState) (cid : String) (s : CallState)
    (apiOk : Bool) (h : mapGet st.calls cid = some s)
    (hdir : s.direction = "inbound") :
    (mapGet (endCall cid apiOk st).1.calls cid =
        some { s with status := "terminated", peersClosed := true } ∧
      (endCall cid apiOk st).2.1 = [Event.callEnded cid none] ∧
      (endCall cid apiOk st).2.2 = none) ∧
    (mapGet (rejectInboundCall cid apiOk st).1.calls cid =
        some { s with status := "rejected", peersClosed := true } ∧
      (rejectInboundCall cid apiOk st).2.1 = [Event.callEnded cid (some s.recipientPhone)] ∧
      (rejectInboundCall cid apiOk st).2.2 = none) := by
  have hterm : cleanup (mapSet st.calls cid { s with status := "terminated" }) cid =
      mapSet (mapSet st.calls cid { s with status := "terminated" }) cid
        { s with status := "terminated", peersClosed := true } := by
    simp only [cleanup, mapGet_mapSet_self]
  have hrej : cleanup (mapSet st.calls cid { s with status := "rejected" }) cid =
      mapSet (mapSet st.calls cid { s with status := "rejected" }) cid
        { s with status := "rejected", peersClosed := true } := by
    simp only [cleanup, mapGet_mapSet_self]
  refine ⟨⟨?_, ?_, ?_⟩, ⟨?_, ?_, ?_⟩⟩
  · simp only [endCall, h, hterm, mapGet_mapSet_self]
  · simp only [endCall, h]
  · simp only [endCall, h]
  · simp only [rejectInboundCall, h,
      if_neg (show ¬s.direction ≠ "inbound" from fun hc => hc hdir), hrej,
      mapGet_mapSet_self]
  · simp only [rejectInboundCall, h,
      if_neg (show ¬s.direction ≠ "inbound" from fun hc => hc hdir)]
  · simp only [rejectInboundCall, h,
      if_neg (show ¬s.direction ≠ "inbound" from fun hc => hc hdir)]

/-- Witness for C9 with the provider call failing (`apiOk = false`). -/
theorem C9_witness :
    (mapGet (endCall "w1" false ⟨[("w1", demoInbound "w1" "incoming")], []⟩).1.calls "w1" =
        some { demoInbound "w1" "incoming" with status := "terminated", peersClosed := true } ∧
      (endCall "w1" false ⟨[("w1", demoInbound "w1" "incoming")], []⟩).2.1 =
        [Event.callEnded "w1" none] ∧
      (endCall "w1" false ⟨[("w1", demoInbound "w1" "incoming")], []⟩).2.2 = none) ∧
    (mapGet (rejectInboundCall "w1" false
          ⟨[("w1", demoInbound "w1" "incoming")], []⟩).1.calls "w1" =
        some { demoInbound "w1" "incoming" with status := "rejected", peersClosed := true } ∧
      (rejectInboundCall "w1" false ⟨[("w1", demoInbound "w1" "incoming")], []⟩).2.1 =
        [Event.callEnded "w1" (some "p2")] ∧
      (rejectInboundCall "w1" false ⟨[("w1", demoInbound "w1" "incoming")], []⟩).2.2 = none) :=
  C9_teardown_unconditional ⟨[("w1", demoInbound "w1" "incoming")], []⟩ "w1"
    (demoInbound "w1" "incoming") false rfl rfl

/-! ### Claim C10 — accept guard -/

/-- Claim C10: `acceptInboundCall` throws `'No inbound call to accept'`
exactly when no session with the id exists or the session's direction is not
`inbound`, and in that case state and emissions are untouched; when an
inbound session exists it proceeds regardless of its current status
(terminal included): relay mode marks it `accepting` and forwards the stored
offer, bridge mode (handshake succeeding) drives it to `connected`. -/
theorem C10_accept_guard (st : SysState) (cid : String) (bridge preOk accOk : Bool) :
    ((acceptInboundCall cid bridge preOk accOk st).2.2 = some "No inbound call to accept" ↔
      ∀ s, mapGet st.calls cid = some s → s.direction ≠ "inbound") ∧
    ((∀ s, mapGet st.calls cid = some s → s.direction ≠ "inbound") →
      acceptInboundCall cid bridge preOk accOk st =
        (st, [], some "No inbound call to accept")) ∧
    (∀ s, mapGet st.calls cid = some s → s.direction = "inbound" →
      acceptInboundCall cid false preOk accOk st =
        (⟨mapSet st.calls cid { s with status := "accepting" }, st.perms⟩,
         [Event.inboundSdpOffer cid], none)) ∧
    (∀ s, mapGet st.calls cid = some s → s.direction = "inbound" →
      mapGet (acceptInboundCall cid true true true st).1.calls cid =
        some { s with status := "connected", whatsappPeer := true }) := by
  cases hget : mapGet st.calls cid with
  | none =>
    refine ⟨?_, ?_, ?_, ?_⟩
    · simp only [acceptInboundCall, hget]
      constructor
      · intro _ s hs
        simp at hs
      · intro _
        trivial
    · intro _
      simp only [acceptInboundCall, hget]
    · intro s hs
      simp at hs
    · intro s hs
      simp at hs
  | some s =>
    by_cases hd : s.direction = "inbound"
    · have hcond : ¬s.direction ≠ "inbound" := fun hc => hc hd
      refine ⟨?_, ?_, ?_, ?_⟩
      · constructor
        · intro hl
          exfalso
          revert hl
          simp only [acceptInboundCall, hget, if_neg hcond]
          cases bridge <;> cases preOk <;> cases accOk <;> simp
        · intro hr
          exact absurd hd (hr s rfl)
      · intro hr
        exact absurd hd (hr s rfl)
      · intro s' hs' _
        have hss : s' = s := (Option.some_inj.mp hs').symm
        subst hss
        simp only [acceptInboundCall, hget, if_neg hcond]
        rw [if_neg Bool.false_ne_true]
      · intro s' hs' _
        have hss : s' = s := (Option.some_inj.mp hs').symm
        subst hss
        simp only [acceptInboundCall, hget, if_neg hcond]
        rw [if_pos trivial, if_pos trivial, if_pos trivial, mapGet_mapSet_self]
    · have hcond : s.direction ≠ "inbound" := hd
      refine ⟨?_, ?_, ?_, ?_⟩
      · simp only [acceptInboundCall, hget, if_pos hcond]
        constructor
        · intro _ s' hs'
          have hss : s' = s := (Option.some_inj.mp hs').symm
          rw [hss]
          exact hd
        · intro _
          trivial
      · intro _
        simp only [acceptInboundCall, hget, if_pos hcond]
      · intro s' hs' hd'
        have hss : s' = s := (Option.some_inj.mp hs').symm
        subst hss
        exact absurd hd' hd
      · intro s' hs' hd'
        have hss : s' = s := (Option.some_inj.mp hs').symm
        subst hss
        exact absurd hd' hd

/-- Witness for C10 at an inbound session already in the terminal status
`terminated`: the guard error is not thrown and the relay handshake
proceeds. -/
theorem C10_witness :
    acceptInboundCall "w2" false true true ⟨[("w2", demoInbound "w2" "terminated")], []⟩ =
      (⟨[("w2", { demoInbound "w2" "terminated" with status := "accepting" })], []⟩,
       [Event.inboundSdpOffer "w2"], none) :=
  (C10_accept_guard ⟨[("w2", demoInbound "w2" "terminated")], []⟩ "w2" false true true).2.2.1
    (demoInbound "w2" "terminated") rfl rfl

/-! ### Claim C4 — registry well-formedness across rekeys -/

/-- The registry invariant: keys are pairwise distinct (at most one entry
per call id) and every entry's key equals its session's current `callId`. -/
def RegistryWF (m : CallMap) : Prop :=
  (keysOf m).Nodup ∧ ∀ p ∈ m, p.2.callId = p.1

theorem RegistryWF_mapSet {m : CallMap} {k : String} {v : CallState}
    (h : RegistryWF m) (hv : v.callId = k) : RegistryWF (mapSet m k v) := by
  refine ⟨nodup_keys_mapSet m k v h.1, ?_⟩
  intro p hp
  rcases mem_mapSet_elim hp with hpv | hmem
  · rw [hpv]
    exact hv
  · exact h.2 p hmem

theorem RegistryWF_mapDelete {m : CallMap} {k : String} (h : RegistryWF m) :
    RegistryWF (mapDelete m k) := by
  refine ⟨nodup_keys_mapDelete m k h.1, ?_⟩
  intro p hp
  exact h.2 p ((mapDelete_sublist m k).subset hp)

theorem RegistryWF_cleanup {m : CallMap} (k : String) (h : RegistryWF m) :
    RegistryWF (cleanup m k) := by
  unfold cleanup
  cases hg : mapGet m k with
  | none => exact h
  | some s =>
    have hk : s.callId = k := h.2 (k, s) (mem_of_mapGet hg)
    exact RegistryWF_mapSet h hk

/-- Claim C4: both id-rewriting operations — the local-offer step adopting
the provider-assigned id and the remote-answer fallback adopting the
arriving id — preserve the registry invariant: at most one entry per call id
and every entry keyed by its session's current `callId`.  (Each rekey is a
single Lean step, matching the `await`-free delete+insert in the source.) -/
theorem C4_registry_rekey_wf (st : SysState) (cid : String)
    (api : Except String String) (h : RegistryWF st.calls) :
    RegistryWF (handleBrowserSdpOffer cid api st).1.calls ∧
    RegistryWF (handleOutboundSdpAnswer cid st).1.calls := by
  constructor
  · simp only [handleBrowserSdpOffer]
    cases hg : mapGet st.calls cid with
    | none => exact h
    | some s =>
      by_cases hst : s.status = "ringing" ∨ s.status = "connected"
      · simp only [if_pos hst]
        exact h
      · simp only [if_neg hst]
        cases api with
        | ok waId =>
          by_cases hid : waId ≠ cid
          · simp only [if_pos hid]
            exact RegistryWF_mapSet (RegistryWF_mapDelete h) rfl
          · simp only [if_neg hid]
            push_neg at hid
            exact RegistryWF_mapSet h hid
        | error e =>
          exact RegistryWF_cleanup cid
            (RegistryWF_mapSet h (h.2 (cid, s) (mem_of_mapGet hg)))
  · simp only [handleOutboundSdpAnswer, resolveAnswerTarget]
    cases hg : mapGet st.calls cid with
    | some s =>
      have hk : s.callId = cid := h.2 (cid, s) (mem_of_mapGet hg)
      exact RegistryWF_mapSet h hk
    | none =>
      cases hf : st.calls.find? answerFallback with
      | none => exact h
      | some q =>
        obtain ⟨id, s⟩ := q
        exact RegistryWF_mapSet (RegistryWF_mapSet (RegistryWF_mapDelete h) rfl) rfl

/-- Witness for C4 at a one-entry registry holding a provisional outbound
session, with the provider assigning a different id. -/
theorem C4_witness :
    RegistryWF (handleBrowserSdpOffer "prov" (.ok "wa9")
        ⟨[("prov", demoOutbound "prov" "awaiting_browser_sdp")], []⟩).1.calls ∧
    RegistryWF (handleOutboundSdpAnswer "prov"
        ⟨[("prov", demoOutbound "prov" "awaiting_browser_sdp")], []⟩).1.calls :=
  C4_registry_rekey_wf ⟨[("prov", demoOutbound "prov" "awaiting_browser_sdp")], []⟩
    "prov" (.ok "wa9")
    ⟨by simp [keysOf], by
      intro p hp
      simp only [List.mem_singleton] at hp
      rw [hp]
      rfl⟩

/-! ### Claims C1 and C6 — outbound initiation, conflicts, stale reclaim -/

/-- A registry entry that makes the conflict check throw: an active outbound
session that is not an auto-expirable stale `awaiting_browser_sdp` one
(i.e. `ringing`, `accepted`, `connected`, or a fresh `awaiting_browser_sdp`
aged at most 30s). -/
def conflictEntry (now : Nat) (p : String × CallState) : Prop :=
  isActiveOutbound p.2 = true ∧ isStaleAwaiting now p.2 = false

def outboundActivePair (p : String × CallState) : Bool := isActiveOutbound p.2

theorem scanConflict_keys (now : Nat) (l : CallMap) :
    keysOf (scanConflict now l).1 = keysOf l := by
  induction l with
  | nil => rfl
  | cons p rest ih =>
    obtain ⟨id, s⟩ := p
    by_cases ha : isActiveOutbound s = true
    · by_cases hs : isStaleAwaiting now s = true
      · simp only [scanConflict, if_pos ha, if_pos hs]
        show id :: keysOf (scanConflict now rest).1 = id :: keysOf rest
        rw [ih]
      · simp only [scanConflict, if_pos ha, if_neg hs]
    · simp only [scanConflict, if_neg ha]
      show id :: keysOf (scanConflict now rest).1 = id :: keysOf rest
      rw [ih]

theorem scanConflict_some_of_conflict (now : Nat) (l : CallMap)
    (hconf : ∃ p ∈ l, conflictEntry now p) :
    ∃ id stt, (scanConflict now l).2 = some (id, stt) := by
  induction l with
  | nil => obtain ⟨p, hp, _⟩ := hconf; simp at hp
  | cons q rest ih =>
    obtain ⟨id, s⟩ := q
    obtain ⟨p, hp, hc⟩ := hconf
    by_cases ha : isActiveOutbound s = true
    · by_cases hs : isStaleAwaiting now s = true
      · simp only [scanConflict, if_pos ha, if_pos hs]
        rcases List.mem_cons.mp hp with hph | hpt
        · exfalso
          rw [hph] at hc
          rw [hc.2] at hs
          exact Bool.false_ne_true hs
        · exact ih ⟨p, hpt, hc⟩
      · simp only [scanConflict, if_pos ha, if_neg hs]
        exact ⟨id, s.status, rfl⟩
    · by_cases hs2 : isStaleAwaiting now s = true
      · simp only [scanConflict, if_neg ha]
        rcases List.mem_cons.mp hp with hph | hpt
        · exfalso
          rw [hph] at hc
          exact ha hc.1
        · exact ih ⟨p, hpt, hc⟩
      · simp only [scanConflict, if_neg ha]
        rcases List.mem_cons.mp hp with hph | hpt
        · exfalso
          rw [hph] at hc
          exact ha hc.1
        · exact ih ⟨p, hpt, hc⟩

theorem scanConflict_none_inactive (now : Nat) (l : CallMap)
    (h : (scanConflict now l).2 = none) :
    ∀ p ∈ (scanConflict now l).1, outboundActivePair p = false := by
  induction l with
  | nil => intro p hp; simp [scanConflict] at hp
  | cons q rest ih =>
    obtain ⟨id, s⟩ := q
    by_cases ha : isActiveOutbound s = true
    · by_cases hs : isStaleAwaiting now s = true
      · simp only [scanConflict, if_pos ha, if_pos hs] at h ⊢
        intro p hp
        rcases List.mem_cons.mp hp with hph | hpt
        · rw [hph]
          simp only [outboundActivePair, isActiveOutbound]
          rw [show activeStatuses.contains
              ({ s with status := "expired", peersClosed := true } : CallState).status = false
            from rfl]
          exact Bool.and_false _
        · exact ih h p hpt
      · simp only [scanConflict, if_pos ha, if_neg hs] at h
        simp at h
    · simp only [scanConflict, if_neg ha] at h ⊢
      intro p hp
      rcases List.mem_cons.mp hp with hph | hpt
      · rw [hph]
        simp only [outboundActivePair]
        exact Bool.eq_false_iff.mpr ha
      · exact ih h p hpt

theorem scanConflict_none_of_all_stale (now : Nat) (l : CallMap)
    (h : ∀ p ∈ l, isActiveOutbound p.2 = true → isStaleAwaiting now p.2 = true) :
    (scanConflict now l).2 = none := by
  induction l with
  | nil => rfl
  | cons q rest ih =>
    obtain ⟨id, s⟩ := q
    have hrest : ∀ p ∈ rest, isActiveOutbound p.2 = true → isStaleAwaiting now p.2 = true :=
      fun p hp => h p (List.mem_cons_of_mem _ hp)
    by_cases ha : isActiveOutbound s = true
    · have hs : isStaleAwaiting now s = true := h (id, s) (List.mem_cons_self _ _) ha
      simp only [scanConflict, if_pos ha, if_pos hs]
      exact ih hrest
    · simp only [scanConflict, if_neg ha]
      exact ih hrest

/-- What the conflict-free pass of the loop does to one entry. -/
def expireStep (now : Nat) (p : String × CallState) : String × CallState :=
  if isActiveOutbound p.2 = true then
    (p.1, { p.2 with status := "expired", peersClosed := true })
  else p

theorem scanConflict_none_eq_map (now : Nat) (l : CallMap)
    (h : (scanConflict now l).2 = none) :
    (scanConflict now l).1 = l.map (expireStep now) := by
  induction l with
  | nil => rfl
  | cons q rest ih =>
    obtain ⟨id, s⟩ := q
    by_cases ha : isActiveOutbound s = true
    · by_cases hs : isStaleAwaiting now s = true
      · simp only [scanConflict, if_pos ha, if_pos hs] at h ⊢
        rw [List.map_cons, ih h]
        simp only [expireStep, if_pos ha]
      · simp only [scanConflict, if_pos ha, if_neg hs] at h
        simp at h
    · simp only [scanConflict, if_neg ha] at h ⊢
      rw [List.map_cons, ih h]
      simp only [expireStep, if_neg ha]

theorem countP_mapSet_le_one (m : CallMap) (k : String) (v : CallState)
    (h : ∀ p ∈ m, outboundActivePair p = false) :
    (mapSet m k v).countP outboundActivePair ≤ 1 := by
  induction m with
  | nil =>
    show List.countP outboundActivePair [(k, v)] ≤ 1
    simp only [List.countP_cons, List.countP_nil]
    split <;> omega
  | cons p rest ih =>
    have hrest : ∀ q ∈ rest, outboundActivePair q = false :=
      fun q hq => h q (List.mem_cons_of_mem _ hq)
    have hzero : rest.countP outboundActivePair = 0 :=
      List.countP_eq_zero.mpr (fun q hq => by rw [hrest q hq]; exact Bool.false_ne_true)
    by_cases hk : p.1 = k
    · simp only [mapSet, if_pos hk, List.countP_cons, hzero]
      split <;> omega
    · simp only [mapSet, if_neg hk, List.countP_cons]
      rw [h p (List.mem_cons_self _ _)]
      simpa using ih hrest

/-- Claim C1: with permission granted, if the registry holds any conflicting
active outbound session (ringing/accepted/connected, or a fresh
`awaiting_browser_sdp`), `startOutboundCall` throws the conflict error and
creates no new session (the key set is unchanged); and whenever it succeeds,
at most one outbound session is in an active non-terminal status
afterwards. -/
theorem C1_outbound_conflict (st : SysState) (phone : String) (now : Nat)
    (bridge : Bool) (api : Except String String) (sock : Option String)
    (hperm : (getPermissionStatus st.perms phone now).1.isGranted = true) :
    ((∃ p ∈ st.calls, conflictEntry now p) →
      (∃ id stt, (startOutboundCall phone now bridge api sock st).2.2 =
          .error (conflictMsg id stt)) ∧
        keysOf (startOutboundCall phone now bridge api sock st).1.calls =
          keysOf st.calls) ∧
    (∀ r, (startOutboundCall phone now bridge api sock st).2.2 = .ok r →
      ((startOutboundCall phone now bridge api sock st).1.calls.countP
          outboundActivePair) ≤ 1) := by
  cases hp : (getPermissionStatus st.perms phone now).1 with
  | ungranted =>
    rw [hp] at hperm
    simp [PermStatus.isGranted] at hperm
  | expired =>
    rw [hp] at hperm
    simp [PermStatus.isGranted] at hperm
  | granted a b c =>
    cases hs : (scanConflict now st.calls).2 with
    | some q =>
      obtain ⟨id, stt⟩ := q
      constructor
      · intro _
        constructor
        · refine ⟨id, stt, ?_⟩
          simp only [startOutboundCall, hp, hs]
        · simp only [startOutboundCall, hp, hs]
          exact scanConflict_keys now st.calls
      · intro r hr
        simp only [startOutboundCall, hp, hs] at hr
        simp at hr
    | none =>
      constructor
      · intro hconf
        exfalso
        obtain ⟨id, stt, hsome⟩ := scanConflict_some_of_conflict now st.calls hconf
        rw [hs] at hsome
        simp at hsome
      · intro r hr
        have hinactive := scanConflict_none_inactive now st.calls hs
        cases bridge with
        | true =>
          cases api with
          | error e =>
            simp only [startOutboundCall, hp, hs] at hr
            rw [if_pos trivial] at hr
            simp at hr
          | ok cid =>
            simp only [startOutboundCall, hp, hs]
            rw [if_pos trivial]
            exact countP_mapSet_le_one _ _ _ hinactive
        | false =>
          simp only [startOutboundCall, hp, hs]
          rw [if_neg Bool.false_ne_true]
          exact countP_mapSet_le_one _ _ _ hinactive

/-- Witness for C1: permission granted for `p1`, one outbound session in
`ringing` — the initiate request fails with the conflict error and the key
set is unchanged. -/
theorem C1_witness :
    (∃ id stt,
        (startOutboundCall "p1" 1000 false (.ok "") none
            ⟨[("c0", demoOutbound "c0" "ringing")], [("p1", ⟨0, 259200000⟩)]⟩).2.2 =
          .error (conflictMsg id stt)) ∧
      keysOf (startOutboundCall "p1" 1000 false (.ok "") none
          ⟨[("c0", demoOutbound "c0" "ringing")], [("p1", ⟨0, 259200000⟩)]⟩).1.calls =
        keysOf (⟨[("c0", demoOutbound "c0" "ringing")], [("p1", ⟨0, 259200000⟩)]⟩ :
          SysState).calls :=
  (C1_outbound_conflict ⟨[("c0", demoOutbound "c0" "ringing")], [("p1", ⟨0, 259200000⟩)]⟩
      "p1" 1000 false (.ok "") none (by decide)).1
    ⟨("c0", demoOutbound "c0" "ringing"), List.mem_cons_self _ _, by decide, by decide⟩

/-- Claim C6: permission granted and every active outbound session a stale
`awaiting_browser_sdp` one (age strictly over 30s): the next initiate
request (browser-relay mode) succeeds, the stale sessions are expired and
cleaned up, and a fresh `awaiting_browser_sdp` session is registered. -/
theorem C6_stale_reclaim (st : SysState) (phone : String) (now : Nat) (sock : Option String)
    (hperm : (getPermissionStatus st.perms phone now).1.isGranted = true)
    (hstale : ∀ p ∈ st.calls, isActiveOutbound p.2 = true → isStaleAwaiting now p.2 = true)
    (hfresh : mapGet st.calls (freshBrowserCallId now) = none) :
    (startOutboundCall phone now false (.ok "") sock st).2.2 =
        .ok (freshBrowserCallId now, "awaiting_browser_sdp") ∧
    mapGet (startOutboundCall phone now false (.ok "") sock st).1.calls
        (freshBrowserCallId now) =
      some ⟨freshBrowserCallId now, "outbound", phone, "awaiting_browser_sdp", sock,
            false, false, false, now⟩ ∧
    ∀ p ∈ st.calls, isActiveOutbound p.2 = true →
      (p.1, { p.2 with status := "expired", peersClosed := true }) ∈
        (startOutboundCall phone now false (.ok "") sock st).1.calls := by
  have hs : (scanConflict now st.calls).2 = none :=
    scanConflict_none_of_all_stale now st.calls hstale
  have hmap : (scanConflict now st.calls).1 = st.calls.map (expireStep now) :=
    scanConflict_none_eq_map now st.calls hs
  cases hp : (getPermissionStatus st.perms phone now).1 with
  | ungranted =>
    rw [hp] at hperm
    simp [PermStatus.isGranted] at hperm
  | expired =>
    rw [hp] at hperm
    simp [PermStatus.isGranted] at hperm
  | granted a b c =>
    refine ⟨?_, ?_, ?_⟩
    · simp only [startOutboundCall, hp, hs]
      rw [if_neg Bool.false_ne_true]
    · simp only [startOutboundCall, hp, hs]
      rw [if_neg Bool.false_ne_true]
      exact mapGet_mapSet_self _ _ _
    · intro p hpmem hact
      simp only [startOutboundCall, hp, hs]
      rw [if_neg Bool.false_ne_true]
      have hnotin : freshBrowserCallId now ∉ keysOf (scanConflict now st.calls).1 := by
        rw [scanConflict_keys now st.calls]
        exact (mapGet_eq_none_iff st.calls (freshBrowserCallId now)).mp hfresh
      rw [mapSet_eq_append _ _ _ hnotin]
      apply List.mem_append_left
      rw [hmap]
      refine List.mem_map.mpr ⟨p, hpmem, ?_⟩
      simp only [expireStep, if_pos hact]

/-- Witness for C6: one outbound `awaiting_browser_sdp` session created at
time 0, initiate request at time 40001 (age beyond 30s) with permission
granted — it succeeds and the old session is expired. -/
theorem C6_witness :
    (startOutboundCall "p1" 40001 false (.ok "") none
        ⟨[("old", demoOutbound "old" "awaiting_browser_sdp")],
         [("p1", ⟨40000, 299240000⟩)]⟩).2.2 =
      .ok (freshBrowserCallId 40001, "awaiting_browser_sdp") ∧
    mapGet (startOutboundCall "p1" 40001 false (.ok "") none
        ⟨[("old", demoOutbound "old" "awaiting_browser_sdp")],
         [("p1", ⟨40000, 299240000⟩)]⟩).1.calls (freshBrowserCallId 40001) =
      some ⟨freshBrowserCallId 40001, "outbound", "p1", "awaiting_browser_sdp", none,
            false, false, false, 40001⟩ ∧
    ∀ p ∈ [("old", demoOutbound "old" "awaiting_browser_sdp")],
      isActiveOutbound p.2 = true →
      (p.1, { p.2 with status := "expired", peersClosed := true }) ∈
        (startOutboundCall "p1" 40001 false (.ok "") none
          ⟨[("old", demoOutbound "old" "awaiting_browser_sdp")],
           [("p1", ⟨40000, 299240000⟩)]⟩).1.calls :=
  C6_stale_reclaim ⟨[("old", demoOutbound "old" "awaiting_browser_sdp")],
      [("p1", ⟨40000, 299240000⟩)]⟩ "p1" 40001 none (by decide) (by decide) (by decide)
